import Mathlib

/-!
Verification of the RMM agent core (tray-template variant) against its
natural-language specification.

The Rust sources under src-tauri/src are shallowly embedded below:
pure decision logic becomes Lean functions, stateful code becomes explicit
state passing over small state types, HTTP traffic becomes explicit
response values, and fallible code returns Except.  Machine integers are
modelled as Nat (no arithmetic in this code ever overflows or wraps).

Modelling conventions, shared by all components:
 - an HTTP status code is a Nat; the reqwest is_success test is 200 <= s < 300;
 - Rust str::to_lowercase is modelled per-character (ASCII-accurate);
 - Rust str::trim is modelled with the Unicode white-space set;
 - file-system and network faults are inputs of the model where the source
   branches on them, and are otherwise assumed absent.
-/

/-! ## Shared string helpers (models of Rust std string operations) -/

/-- Model of Rust str::contains for string needles: boolean test that
the needle appears as a contiguous subsequence of the haystack. -/
def containsSeq (pat : List Char) : List Char → Bool
  | [] => pat.isEmpty
  | c :: rest => pat.isPrefixOf (c :: rest) || containsSeq pat rest

/-- String-level wrapper for containsSeq. -/
def strContains (s pat : String) : Bool := containsSeq pat.data s.data

/-- Model of Rust str::to_lowercase, per character (exact on ASCII). -/
def strToLower (s : String) : String := ⟨s.data.map Char.toLower⟩

/-- The Unicode White_Space code points, as tested by Rust
char::is_whitespace. -/
def rustIsWhitespace (c : Char) : Bool :=
  c == ' ' || c == '\t' || c == '\n' || (c == Char.ofNat 0x0B) ||
  (c == Char.ofNat 0x0C) || c == '\r' || (c == Char.ofNat 0x85) ||
  (c == Char.ofNat 0xA0) || (c == Char.ofNat 0x1680) ||
  (0x2000 ≤ c.toNat && c.toNat ≤ 0x200A) ||
  (c == Char.ofNat 0x2028) || (c == Char.ofNat 0x2029) ||
  (c == Char.ofNat 0x202F) || (c == Char.ofNat 0x205F) ||
  (c == Char.ofNat 0x3000)

/-- Model of Rust str::trim: drop leading and trailing whitespace. -/
def rustTrim (s : String) : String :=
  ⟨(((s.data.dropWhile rustIsWhitespace).reverse.dropWhile
      rustIsWhitespace).reverse)⟩

/-- reqwest StatusCode::is_success(): the 2xx range. -/
def statusIsSuccess (s : Nat) : Bool := 200 ≤ s && s < 300

/-! ## enrollment.rs: rejection classifier (is_rejection_response) -/

/-- Embedding of enrollment.rs is_rejection_response: a 403 whose
lower-cased body contains one of the four rejection keywords. -/
def is_rejection_response (status : Nat) (body : String) : Bool :=
  if status = 403 then
    let body_lower := strToLower body
    strContains body_lower "revoked" || strContains body_lower "rejected" ||
    strContains body_lower "banned" || strContains body_lower "invalid"
  else
    false

/-! ## enrollment.rs: enroll retry loop (EnrollmentManager::enroll) -/

/-- The backend response seen by one enrollment attempt: either an HTTP
response with status and body, or a network-level send failure. -/
inductive HttpOutcome where
  | resp (status : Nat) (body : String)
  | netErr
deriving DecidableEq

/-- The retry_delays array of EnrollmentManager::enroll. -/
def retry_delays : List Nat := [30, 60, 120, 240, 300]

/-- One transient-failure step of the enroll loop: the wait chosen and the
updated attempt counter, exactly as both transient branches of the source
compute them (indexed delay and increment while attempt is within the
table, else a constant 300 with the counter left alone). -/
def transientDelay (attempt : Nat) : Nat × Nat :=
  if h : attempt < retry_delays.length then
    (retry_delays.get ⟨attempt, h⟩, attempt + 1)
  else
    (300, attempt)

/-- What one iteration of the enroll loop does with the attempt counter
and the backend outcome. -/
inductive EnrollStep where
  | done
  | fatal (body : String)
  | retryAfter (delay : Nat) (nextAttempt : Nat)
deriving DecidableEq

/-- Embedding of one iteration of EnrollmentManager::enroll: success
returns, a rejection response fails fatally, anything else schedules a
retry with the backoff delay. -/
def enrollStep (attempt : Nat) (r : HttpOutcome) : EnrollStep :=
  match r with
  | .netErr =>
      let p := transientDelay attempt
      .retryAfter p.1 p.2
  | .resp status body =>
      if statusIsSuccess status then
        .done
      else if is_rejection_response status body then
        .fatal body
      else
        let p := transientDelay attempt
        .retryAfter p.1 p.2

/-- The sequence of waits produced by n consecutive transient failures,
starting from a given attempt counter (the loop starts it at 0). -/
def enrollWaits : Nat → Nat → List Nat
  | 0, _ => []
  | Nat.succ n, attempt =>
      let p := transientDelay attempt
      p.1 :: enrollWaits n p.2

/-! ## Helper lemmas -/

theorem enrollWaits_eq_map (n : Nat) :
    ∀ a : Nat, enrollWaits n a =
      (List.range n).map (fun i => retry_delays.getD (a + i) 300) := by
  induction n with
  | zero => intro a; simp [enrollWaits]
  | succ n ih =>
    intro a
    rw [List.range_succ_eq_map, List.map_cons, List.map_map]
    show enrollWaits (n + 1) a = _
    unfold enrollWaits
    by_cases h : a < retry_delays.length
    · simp only [transientDelay, dif_pos h]
      rw [ih (a + 1)]
      congr 1
      · rw [List.getD_eq_getElem _ _ (by simpa using h)]
        simp
      · congr 1
        funext i
        simp [Function.comp, Nat.add_comm, Nat.add_assoc, Nat.add_left_comm]
    · simp only [transientDelay, dif_neg h]
      rw [ih a]
      congr 1
      · rw [List.getD_eq_default]
        omega
      · congr 1
        funext i
        simp only [Function.comp]
        rw [List.getD_eq_default, List.getD_eq_default] <;> omega

/-! ## Claim C1 -/

/-- Claim C1: is_rejection_response status body is true iff status is 403
and the lower-cased body contains one of revoked, rejected, banned,
invalid; and every other non-2xx (or network-failed) enrollment attempt is
classified transient, i.e. the enroll loop schedules a backoff retry. -/
theorem c1_rejection_classifier :
    (∀ (s : Nat) (b : String),
        is_rejection_response s b = true ↔
          (s = 403 ∧ (strContains (strToLower b) "revoked" = true ∨
                      strContains (strToLower b) "rejected" = true ∨
                      strContains (strToLower b) "banned" = true ∨
                      strContains (strToLower b) "invalid" = true)))
    ∧ (∀ (a s : Nat) (b : String),
        statusIsSuccess s = false → is_rejection_response s b = false →
          enrollStep a (.resp s b) =
            .retryAfter (transientDelay a).1 (transientDelay a).2)
    ∧ (∀ a : Nat, enrollStep a .netErr =
          .retryAfter (transientDelay a).1 (transientDelay a).2) := by
  refine ⟨?_, ?_, ?_⟩
  · intro s b
    by_cases h : s = 403 <;>
      simp [is_rejection_response, h, Bool.or_eq_true, and_assoc, or_assoc]
  · intro a s b h1 h2
    simp [enrollStep, h1, h2]
  · intro a
    rfl

/-- Witness for C1: a 500 response with a harmless body is not a
rejection, and attempt 0 schedules a 30-second retry. -/
theorem c1_rejection_classifier_witness :
    statusIsSuccess 500 = false ∧
    is_rejection_response 500 "server error" = false ∧
    enrollStep 0 (.resp 500 "server error") =
      .retryAfter (transientDelay 0).1 (transientDelay 0).2 :=
  ⟨by decide, by decide,
    c1_rejection_classifier.2.1 0 500 "server error" (by decide) (by decide)⟩

/-! ## Claim C2 -/

/-- Claim C2: the waits between successive transiently-failing enrollment
attempts are exactly 30, 60, 120, 240, 300 seconds for the first five
waits, and 300 seconds for every later wait (index into the table while it
lasts, 300 beyond it). -/
theorem c2_retry_schedule :
    ∀ n : Nat, enrollWaits n 0 =
      (List.range n).map (fun i => [30, 60, 120, 240, 300].getD i 300) := by
  intro n
  rw [enrollWaits_eq_map n 0]
  simp [retry_delays]

/-! ## storage.rs: the credential store (non-Windows path)

The on-disk credential file is modelled as an Option String: none when
the file is absent, some content when it exists.  I/O faults other than
absence are not modelled (every modelled operation on a present file
succeeds). -/

/-- The credential file: absent, or present with its exact content. -/
abbrev KeyFile := Option String

/-- Storage::has_key: the file exists. -/
def has_key (fs : KeyFile) : Bool := fs.isSome

/-- Storage::read_key (Unix path): read the file and trim the content;
error when the file is absent. -/
def read_key (fs : KeyFile) : Except String String :=
  match fs with
  | some content => .ok (rustTrim content)
  | none => .error "Failed to read API key file"

/-- Storage::save_key (Unix path): write the trimmed key. -/
def save_key (_fs : KeyFile) (key : String) : KeyFile :=
  some (rustTrim key)

/-- Storage::delete_key: remove the file when it exists, otherwise do
nothing; both paths succeed. -/
def delete_key (fs : KeyFile) : Except String KeyFile :=
  if has_key fs then .ok none else .ok fs

/-! ## enrollment.rs: EnrollmentStatus and check_status -/

/-- enrollment.rs EnrollmentStatus. -/
inductive EnrollmentStatus where
  | Approved
  | Pending
  | Revoked
  | Unknown (raw : String)
deriving DecidableEq

/-- The parsed body of a 2xx /api/check response (CheckResponse). -/
structure CheckResponse where
  status : String
  api_key : Option String
deriving DecidableEq

/-- Embedding of the response-dispatch tail of
EnrollmentManager::check_status: the status it reports and the credential
file it leaves behind.  An approved response with a key saves the key; an
approved response without one is reported Pending and saves nothing; a
revoked response deletes the key (its deletion result is ignored). -/
def check_status_response (resp : CheckResponse) (fs : KeyFile) :
    EnrollmentStatus × KeyFile :=
  match resp.status with
  | "approved" =>
      match resp.api_key with
      | some api_key => (.Approved, save_key fs api_key)
      | none => (.Pending, fs)
  | "pending" => (.Pending, fs)
  | "revoked" => (.Revoked, none)
  | other => (.Unknown other, fs)

/-! ## agent.rs: AgentState and Agent::check_status -/

/-- agent.rs AgentState. -/
inductive AgentState where
  | NotEnrolled
  | PendingApproval
  | Active
  | Revoked
  | Error (msg : String)
deriving DecidableEq

/-- Embedding of Agent::check_status: the state stored (and returned)
after one poll, as a function of the current state and the poll result.
A failed poll leaves the state unchanged. -/
def agent_check_status (current : AgentState)
    (poll : Except String EnrollmentStatus) : AgentState :=
  match poll with
  | .ok .Approved => .Active
  | .ok .Pending => .PendingApproval
  | .ok .Revoked => .Revoked
  | .ok (.Unknown status) => .Error ("Unknown status: " ++ status)
  | .error _ => current

/-! ## metrics.rs: submit_metrics and collect_and_submit -/

/-- The error of MetricsCollector::submit_metrics: a network-level send
failure, or a non-2xx backend response with its status and body. -/
inductive SubmitError where
  | io
  | http (status : Nat) (body : String)
deriving DecidableEq

/-- Embedding of MetricsCollector::submit_metrics: ok on a 2xx response,
an error carrying the response otherwise. -/
def submit_metrics (r : HttpOutcome) : Except SubmitError Unit :=
  match r with
  | .netErr => .error .io
  | .resp status body =>
      if statusIsSuccess status then .ok () else .error (.http status body)

/-- Embedding of MetricsCollector::collect_and_submit, restricted to the
submission outcome: every submission error is logged and swallowed, so
the function always returns ok and the metrics loop continues. -/
def collect_and_submit (r : HttpOutcome) : Except SubmitError Unit :=
  match submit_metrics r with
  | .ok _ => .ok ()
  | .error _ => .ok ()

/-- Whether the backend outcome was a 2xx response. -/
def outcomeIsSuccess (r : HttpOutcome) : Bool :=
  match r with
  | .resp status _ => statusIsSuccess status
  | .netErr => false

/-! ## Trim lemmas -/

theorem head?_dropWhile (p : Char → Bool) (l : List Char) :
    ∀ c, (l.dropWhile p).head? = some c → p c = false := by
  induction l with
  | nil => intro c h; simp [List.dropWhile] at h
  | cons a t ih =>
    intro c h
    by_cases hp : p a
    · rw [List.dropWhile_cons_of_pos hp] at h
      exact ih c h
    · rw [List.dropWhile_cons_of_neg hp] at h
      simp only [List.head?_cons, Option.some.injEq] at h
      rw [← h]
      exact Bool.eq_false_iff.mpr hp

theorem dropWhile_eq_self_of_head? (p : Char → Bool) (l : List Char)
    (h : ∀ c, l.head? = some c → p c = false) : l.dropWhile p = l := by
  cases l with
  | nil => rfl
  | cons a t => exact List.dropWhile_cons_of_neg (by simp [h a rfl])

theorem dropWhile_dropWhile (p : Char → Bool) (l : List Char) :
    (l.dropWhile p).dropWhile p = l.dropWhile p :=
  dropWhile_eq_self_of_head? p _ (head?_dropWhile p l)

theorem getLast?_suffix {w v : List Char} (h : w <:+ v) (hw : w ≠ []) :
    w.getLast? = v.getLast? := by
  rcases h with ⟨u, rfl⟩
  rw [List.getLast?_append]
  cases hlast : w.getLast? with
  | none => exact absurd (List.getLast?_eq_none_iff.mp hlast) hw
  | some c => rfl

/-- The characters dropped by rustTrim never straddle the result: the
result of rustTrim starts and ends with non-whitespace (when nonempty). -/
theorem rustTrim_data (s : String) :
    (rustTrim s).data =
      (((s.data.dropWhile rustIsWhitespace).reverse.dropWhile
        rustIsWhitespace).reverse) := rfl

theorem head?_rustTrim (s : String) :
    ∀ c, (rustTrim s).data.head? = some c → rustIsWhitespace c = false := by
  intro c h
  rw [rustTrim_data, List.head?_reverse] at h
  set a := s.data.dropWhile rustIsWhitespace with ha
  set w := a.reverse.dropWhile rustIsWhitespace with hw
  have hwne : w ≠ [] := by
    intro hnil
    rw [hnil] at h
    simp at h
  have hsfx : w <:+ a.reverse := List.dropWhile_suffix _
  rw [getLast?_suffix hsfx hwne, List.getLast?_reverse] at h
  exact head?_dropWhile rustIsWhitespace s.data c h

theorem getLast?_rustTrim (s : String) :
    ∀ c, (rustTrim s).data.getLast? = some c → rustIsWhitespace c = false := by
  intro c h
  rw [rustTrim_data, List.getLast?_reverse] at h
  exact head?_dropWhile rustIsWhitespace _ c h

theorem rustTrim_idem (s : String) : rustTrim (rustTrim s) = rustTrim s := by
  have hfix : (rustTrim s).data.dropWhile rustIsWhitespace =
      (rustTrim s).data :=
    dropWhile_eq_self_of_head? _ _ (head?_rustTrim s)
  have hdata : (rustTrim (rustTrim s)).data = (rustTrim s).data := by
    rw [rustTrim_data (rustTrim s), hfix, rustTrim_data s,
      List.reverse_reverse, dropWhile_dropWhile]
  calc rustTrim (rustTrim s) = ⟨(rustTrim (rustTrim s)).data⟩ := rfl
    _ = ⟨(rustTrim s).data⟩ := by rw [hdata]
    _ = rustTrim s := rfl

/-! ## Claim C3 -/

/-- Counterexample to claim C3 as stated: with current state Active, a
poll yielding Pending does not leave the state Active; Agent::check_status
stores PendingApproval. -/
theorem c3_counterexample :
    agent_check_status .Active (.ok .Pending) = .PendingApproval ∧
    AgentState.PendingApproval ≠ AgentState.Active :=
  ⟨rfl, by decide⟩

/-- Claim C3 (amended): with current state Active, a check_status poll
yielding Approved leaves the state Active (no change), while a poll
yielding Pending changes the state to PendingApproval. -/
theorem c3_active_poll_transitions :
    agent_check_status .Active (.ok .Approved) = .Active ∧
    agent_check_status .Active (.ok .Pending) = .PendingApproval :=
  ⟨rfl, rfl⟩

/-! ## Claim C4 -/

/-- Counterexample to claim C4 as stated: a 401 submission error does not
surface out of the metrics tick (collect_and_submit swallows it and
returns ok), and a 429 response is an error of submit_metrics exactly like
any other non-2xx response, not a success. -/
theorem c4_counterexample :
    collect_and_submit (.resp 401 "unauthorized") = Except.ok () ∧
    submit_metrics (.resp 429 "too many requests") =
      Except.error (.http 429 "too many requests") ∧
    collect_and_submit (.resp 429 "too many requests") = Except.ok () ∧
    collect_and_submit (.resp 500 "backend down") = Except.ok () :=
  ⟨rfl, rfl, rfl, rfl⟩

/-- Claim C4 (amended): submit_metrics fails on every non-2xx response and
on network failure, succeeds exactly on 2xx, and collect_and_submit
swallows every submission failure and returns ok, so the metrics loop
always continues; 401 and 429 receive no special treatment. -/
theorem c4_submission_errors_swallowed :
    ∀ r : HttpOutcome,
      collect_and_submit r = Except.ok () ∧
      (submit_metrics r = Except.ok () ↔ outcomeIsSuccess r = true) := by
  intro r
  cases r with
  | netErr => exact ⟨rfl, by simp [submit_metrics, outcomeIsSuccess]⟩
  | resp status body =>
    by_cases h : statusIsSuccess status <;>
      simp [collect_and_submit, submit_metrics, outcomeIsSuccess, h]

/-! ## Claim C5 -/

/-- Counterexample to claim C5 as stated: writing a key with surrounding
whitespace does not read back the identical byte string; the store trims
it on the way in and on the way out. -/
theorem c5_counterexample :
    read_key (save_key none " a ") = Except.ok "a" ∧
    (" a " : String) ≠ "a" :=
  ⟨rfl, by decide⟩

/-- Claim C5 (amended): after write(S), read() returns S with surrounding
whitespace trimmed (so exactly S whenever S has none); delete() always
succeeds and leaves the credential absent, so has() is false afterwards;
in particular delete() on an absent credential succeeds as a no-op. -/
theorem c5_roundtrip_trimmed :
    ∀ (fs : KeyFile) (s : String),
      read_key (save_key fs s) = Except.ok (rustTrim s) ∧
      delete_key fs = Except.ok none ∧
      has_key none = false := by
  intro fs s
  refine ⟨?_, ?_, rfl⟩
  · show Except.ok (rustTrim (rustTrim s)) = Except.ok (rustTrim s)
    rw [rustTrim_idem]
  · cases fs <;> rfl

/-! ## Claim C8 -/

/-- Claim C8: a check response with status approved but no api_key is
reported as Pending, exactly like a pending response, and the credential
file is left untouched. -/
theorem c8_approved_without_key_is_pending :
    ∀ fs : KeyFile,
      check_status_response ⟨"approved", none⟩ fs = (.Pending, fs) ∧
      check_status_response ⟨"approved", none⟩ fs =
        check_status_response ⟨"pending", none⟩ fs :=
  fun _ => ⟨rfl, rfl⟩

/-! ## Claim C10 -/

/-- Whether a string is free of leading and trailing whitespace. -/
def noEdgeWhitespace (s : String) : Bool :=
  (match s.data.head? with
   | some c => !(rustIsWhitespace c)
   | none => true) &&
  (match s.data.getLast? with
   | some c => !(rustIsWhitespace c)
   | none => true)

/-- Claim C10: whatever the on-disk content of the credential file, a
successful read_key returns a string with no leading or trailing
whitespace. -/
theorem c10_read_key_trimmed :
    ∀ content : String,
      Except.map noEdgeWhitespace (read_key (some content)) =
        Except.ok true := by
  intro content
  show Except.ok (noEdgeWhitespace (rustTrim content)) = Except.ok true
  congr 1
  unfold noEdgeWhitespace
  cases hh : (rustTrim content).data.head? with
  | none =>
    cases hl : (rustTrim content).data.getLast? with
    | none => rfl
    | some c => simp [getLast?_rustTrim content c hl]
  | some c =>
    cases hl : (rustTrim content).data.getLast? with
    | none => simp [head?_rustTrim content c hh]
    | some d => simp [head?_rustTrim content c hh, getLast?_rustTrim content d hl]

/-! ## updater.rs: Updater::apply_pending_update

The file-system operations the procedure performs are modelled by an
environment recording which of them would succeed; the observable effects
of a run are collected in an outcome record.  processExited records
whether any branch terminates the process: the source has no such call,
so every branch leaves it false. -/

/-- Which file-system facts and operations hold for one run of
apply_pending_update. -/
structure UpdateEnv where
  markerExists : Bool
  markerParses : Bool
  newExeExists : Bool
  currentExeResolves : Bool
  renameCurrentToBackupOk : Bool
  renameNewToCurrentOk : Bool
  renameBackupToCurrentOk : Bool
deriving DecidableEq

/-- The observable outcome of one run of apply_pending_update. -/
structure ApplyOutcome where
  result : Except String Bool
  rollbackAttempted : Bool
  criticalLogged : Bool
  processExited : Bool
  markerRemoved : Bool

/-- Embedding of Updater::apply_pending_update, branch for branch:
no marker is a false no-op; an unreadable or unparseable marker is an
error; a missing staged binary removes the marker and returns false; then
the swap renames current to backup and the staged binary onto current.
If the second rename fails the backup is renamed back; if that rollback
also fails a CRITICAL message is logged at ERROR level; either way the
marker is removed and the function returns Ok false without exiting. -/
def apply_pending_update (e : UpdateEnv) : ApplyOutcome :=
  if !e.markerExists then
    ⟨.ok false, false, false, false, false⟩
  else if !e.markerParses then
    ⟨.error "Failed to parse pending marker", false, false, false, false⟩
  else if !e.newExeExists then
    ⟨.ok false, false, false, false, true⟩
  else if !e.currentExeResolves then
    ⟨.error "Failed to get current executable path", false, false, false,
      false⟩
  else if !e.renameCurrentToBackupOk then
    ⟨.ok false, false, false, false, true⟩
  else if !e.renameNewToCurrentOk then
    ⟨.ok false, true, !e.renameBackupToCurrentOk, false, true⟩
  else
    ⟨.ok true, false, false, false, true⟩

/-! ## Claim C6 -/

/-- Counterexample to claim C6 as stated: when the rename of the staged
binary onto current_exe fails and the rollback rename also fails, the
code logs at ERROR but does not exit the process; it removes the marker
and returns Ok false. -/
theorem c6_counterexample :
    apply_pending_update
        ⟨true, true, true, true, true, false, false⟩ =
      ⟨.ok false, true, true, false, true⟩ ∧
    (apply_pending_update
        ⟨true, true, true, true, true, false, false⟩).processExited =
      false :=
  ⟨rfl, rfl⟩

/-- Claim C6 (amended): if the rename of the staged binary onto
current_exe fails, the procedure attempts to rename the backup back to
current_exe; if that rollback also fails the situation is logged at ERROR,
but the process does not exit: the marker is removed and the procedure
returns false. -/
theorem c6_swap_failure_rollback :
    ∀ e : UpdateEnv,
      e.markerExists = true → e.markerParses = true →
      e.newExeExists = true → e.currentExeResolves = true →
      e.renameCurrentToBackupOk = true → e.renameNewToCurrentOk = false →
        (apply_pending_update e).rollbackAttempted = true ∧
        ((apply_pending_update e).criticalLogged =
          !e.renameBackupToCurrentOk) ∧
        (apply_pending_update e).processExited = false ∧
        (apply_pending_update e).result = .ok false ∧
        (apply_pending_update e).markerRemoved = true := by
  intro e h1 h2 h3 h4 h5 h6
  simp [apply_pending_update, h1, h2, h3, h4, h5, h6]

/-- Witness for C6: the fully-failing swap environment satisfies all
hypotheses of the amended theorem. -/
theorem c6_swap_failure_rollback_witness :
    (apply_pending_update
        ⟨true, true, true, true, true, false, true⟩).rollbackAttempted =
      true ∧
    ((apply_pending_update
        ⟨true, true, true, true, true, false, true⟩).criticalLogged =
      !(true : Bool)) ∧
    (apply_pending_update
        ⟨true, true, true, true, true, false, true⟩).processExited =
      false ∧
    (apply_pending_update
        ⟨true, true, true, true, true, false, true⟩).result = .ok false ∧
    (apply_pending_update
        ⟨true, true, true, true, true, false, true⟩).markerRemoved =
      true :=
  c6_swap_failure_rollback ⟨true, true, true, true, true, false, true⟩
    rfl rfl rfl rfl rfl rfl

/-! ## updater.rs: Updater::check_for_update and the semver dependency

updater.rs compares versions through the semver crate.  The crate is
modelled below: a version is major.minor.patch with optional pre-release
identifiers and build metadata; parsing validates identifiers and rejects
leading zeros in numeric positions; ordering compares major, minor and
patch numerically, then pre-release (absence of a pre-release ranks above
any pre-release, numeric identifiers below alphanumeric ones), then build
metadata as a tie-break.  The built-in current version (AGENT_VERSION, a
compile-time constant living in the config module of another variant of
this agent) enters the model as an explicit parameter. -/

/-- One dot-separated pre-release identifier. -/
inductive PreId where
  | num (n : Nat)
  | str (s : List Char)
deriving DecidableEq

/-- A parsed semantic version. -/
structure SemVer where
  major : Nat
  minor : Nat
  patch : Nat
  pre : List PreId
  build : List (List Char)
deriving DecidableEq

/-- ASCII decimal digit test. -/
def isDigitCh (c : Char) : Bool := c.isDigit

/-- Characters allowed in semver identifiers. -/
def isIdentCh (c : Char) : Bool := c.isAlphanum || c == '-'

/-- Decimal value of a digit string. -/
def digitsToNat (l : List Char) : Nat :=
  l.foldl (fun n c => n * 10 + (c.toNat - 48)) 0

/-- Parse one numeric version component: nonempty digits, no leading
zero, within u64 range. -/
def parseNumericCore (l : List Char) : Option Nat :=
  if l.isEmpty then none
  else if !(l.all isDigitCh) then none
  else if 1 < l.length && l.head? == some '0' then none
  else
    let n := digitsToNat l
    if n < 2 ^ 64 then some n else none

/-- Split a character list on a separator; a list with k separators
yields k + 1 groups (empty groups are kept, to be rejected later). -/
def splitSep (sep : Char) : List Char → List (List Char)
  | [] => [[]]
  | c :: rest =>
    if c = sep then
      [] :: splitSep sep rest
    else
      match splitSep sep rest with
      | [] => [[c]]
      | g :: gs => (c :: g) :: gs

/-- Parse one pre-release identifier: nonempty, identifier characters
only, numeric identifiers without leading zeros. -/
def parsePreId (l : List Char) : Option PreId :=
  if l.isEmpty then none
  else if !(l.all isIdentCh) then none
  else if l.all isDigitCh then
    if 1 < l.length && l.head? == some '0' then none
    else some (.num (digitsToNat l))
  else some (.str l)

/-- Parse one build-metadata identifier: nonempty, identifier characters
only (leading zeros are allowed here). -/
def parseBuildId (l : List Char) : Option (List Char) :=
  if l.isEmpty then none
  else if !(l.all isIdentCh) then none
  else some l

/-- Model of semver Version::parse: major.minor.patch, optionally
followed by -pre and/or +build. -/
def parseSemVer (s : String) : Option SemVer :=
  let l := s.data
  match parseNumericCore (l.takeWhile isDigitCh), l.dropWhile isDigitCh with
  | some major, '.' :: r1 =>
    match parseNumericCore (r1.takeWhile isDigitCh),
          r1.dropWhile isDigitCh with
    | some minor, '.' :: r2 =>
      match parseNumericCore (r2.takeWhile isDigitCh) with
      | some patch =>
        match r2.dropWhile isDigitCh with
        | [] => some ⟨major, minor, patch, [], []⟩
        | '-' :: rest =>
          let preChars := rest.takeWhile (fun c => c ≠ '+')
          match (splitSep '.' preChars).mapM parsePreId with
          | none => none
          | some pre =>
            match rest.dropWhile (fun c => c ≠ '+') with
            | [] => some ⟨major, minor, patch, pre, []⟩
            | _ :: bchars =>
              match (splitSep '.' bchars).mapM parseBuildId with
              | none => none
              | some build => some ⟨major, minor, patch, pre, build⟩
        | '+' :: bchars =>
          match (splitSep '.' bchars).mapM parseBuildId with
          | none => none
          | some build => some ⟨major, minor, patch, [], build⟩
        | _ => none
      | none => none
    | _, _ => none
  | _, _ => none

/-- Lexicographic comparison of character lists (by code point). -/
def ordChars : List Char → List Char → Ordering
  | [], [] => .eq
  | [], _ :: _ => .lt
  | _ :: _, [] => .gt
  | a :: l1, b :: l2 =>
    match compare a b with
    | .eq => ordChars l1 l2
    | o => o

/-- Comparison of pre-release identifiers: numeric below alphanumeric,
numeric numerically, alphanumeric lexically. -/
def ordPreId : PreId → PreId → Ordering
  | .num a, .num b => compare a b
  | .num _, .str _ => .lt
  | .str _, .num _ => .gt
  | .str a, .str b => ordChars a b

/-- Lexicographic comparison of pre-release identifier lists. -/
def ordPreList : List PreId → List PreId → Ordering
  | [], [] => .eq
  | [], _ :: _ => .lt
  | _ :: _, [] => .gt
  | a :: l1, b :: l2 =>
    match ordPreId a b with
    | .eq => ordPreList l1 l2
    | o => o

/-- Pre-release precedence: no pre-release ranks above any pre-release;
otherwise lexicographic. -/
def ordPre (a b : List PreId) : Ordering :=
  match a, b with
  | [], [] => .eq
  | [], _ :: _ => .gt
  | _ :: _, [] => .lt
  | _, _ => ordPreList a b

/-- Comparison of build-metadata identifiers: two all-digit identifiers
compare by length then lexically, anything else lexically. -/
def ordBuildId (a b : List Char) : Ordering :=
  if a.all isDigitCh && b.all isDigitCh then
    match compare a.length b.length with
    | .eq => ordChars a b
    | o => o
  else ordChars a b

/-- Lexicographic comparison of build-metadata lists (empty first). -/
def ordBuild : List (List Char) → List (List Char) → Ordering
  | [], [] => .eq
  | [], _ :: _ => .lt
  | _ :: _, [] => .gt
  | a :: l1, b :: l2 =>
    match ordBuildId a b with
    | .eq => ordBuild l1 l2
    | o => o

/-- Model of the semver crate ordering on versions. -/
def semverCompare (a b : SemVer) : Ordering :=
  match compare a.major b.major with
  | .eq =>
    match compare a.minor b.minor with
    | .eq =>
      match compare a.patch b.patch with
      | .eq =>
        match ordPre a.pre b.pre with
        | .eq => ordBuild a.build b.build
        | o => o
      | o => o
    | o => o
  | o => o

/-- The remote <= current test of check_for_update. -/
def semverLe (a b : SemVer) : Bool :=
  match semverCompare a b with
  | .gt => false
  | _ => true

/-- Decimal rendering of a pre-release identifier. -/
def renderPreId : PreId → String
  | .num n => Nat.repr n
  | .str s => ⟨s⟩

/-- Model of semver Version to_string. -/
def svToString (v : SemVer) : String :=
  Nat.repr v.major ++ "." ++ Nat.repr v.minor ++ "." ++ Nat.repr v.patch
  ++ (if v.pre.isEmpty then ""
      else "-" ++ String.intercalate "." (v.pre.map renderPreId))
  ++ (if v.build.isEmpty then ""
      else "+" ++ String.intercalate "."
        (v.build.map (fun l => (⟨l⟩ : String))))

/-- A release asset of the GitHub release feed. -/
structure GitHubAsset where
  name : String
  browser_download_url : String
  size : Nat
deriving DecidableEq

/-- A release of the GitHub release feed. -/
structure GitHubRelease where
  tag_name : String
  assets : List GitHubAsset
deriving DecidableEq

/-- updater.rs UpdateInfo. -/
structure UpdateInfo where
  version : String
  download_url : String
  size : Option Nat
deriving DecidableEq

/-- Rust trim_start_matches with a char pattern drops every leading
occurrence. -/
def trimStartV (s : String) : String := ⟨s.data.dropWhile (fun c => c = 'v')⟩

/-- Embedding of Updater::check_for_update on a successfully fetched and
decoded release, parameterized by the parsed built-in version: an
unparseable tag is Ok none; a remote not above current is Ok none;
otherwise the rmm.exe asset is looked up (its absence is an error) and an
UpdateInfo is produced. -/
def check_for_update (current : SemVer) (release : GitHubRelease) :
    Except String (Option UpdateInfo) :=
  match parseSemVer (trimStartV release.tag_name) with
  | none => .ok none
  | some remote =>
    if semverLe remote current then
      .ok none
    else
      match release.assets.find? (fun a => a.name == "rmm.exe") with
      | none => .error "No rmm.exe found in release assets"
      | some exe_asset =>
        .ok (some ⟨svToString remote, exe_asset.browser_download_url,
          some exe_asset.size⟩)

/-- What the release-feed fetch produced, as seen by check_for_update:
a network failure, a non-2xx response, an undecodable body, or a decoded
release. -/
inductive FeedOutcome where
  | netErr
  | httpErr (status : Nat) (body : String)
  | badJson
  | release (r : GitHubRelease)

/-- Embedding of the fetch-and-check path of Updater::check_for_update:
the three fetch-level failures are errors, a decoded release is handled
by the pure part. -/
def check_for_update_feed (current : SemVer) :
    FeedOutcome → Except String (Option UpdateInfo)
  | .netErr => .error "Failed to fetch GitHub releases"
  | .httpErr status body =>
    .error ("GitHub API returned " ++ Nat.repr status ++ ": " ++ body)
  | .badJson => .error "Failed to parse GitHub release JSON"
  | .release r => check_for_update current r

/-! ## Claim C7 -/

/-- Counterexample to claim C7 as stated: a release whose tag parses to a
version strictly above current but which carries no rmm.exe asset makes
check_for_update return an error, not Some UpdateInfo. -/
theorem c7_counterexample :
    parseSemVer "2.0.0" = some ⟨2, 0, 0, [], []⟩ ∧
    semverLe ⟨2, 0, 0, [], []⟩ ⟨1, 0, 0, [], []⟩ = false ∧
    check_for_update ⟨1, 0, 0, [], []⟩ ⟨"v2.0.0", []⟩ =
      .error "No rmm.exe found in release assets" :=
  ⟨rfl, rfl, rfl⟩

/-- Claim C7 (amended): for every release whose tag parses as a semantic
version, check_for_update returns None whenever the remote version does
not strictly exceed the current one, and returns Some UpdateInfo exactly
when the remote version strictly exceeds the current one and the release
carries an rmm.exe asset. -/
theorem c7_update_iff_newer :
    ∀ (current remote : SemVer) (release : GitHubRelease),
      parseSemVer (trimStartV release.tag_name) = some remote →
        ((semverLe remote current = true →
            check_for_update current release = .ok none) ∧
         ((∃ info, check_for_update current release =
              Except.ok (some info)) ↔
            (semverLe remote current = false ∧
             ∃ a ∈ release.assets, a.name = "rmm.exe"))) := by
  intro current remote release hparse
  unfold check_for_update
  rw [hparse]
  by_cases hle : semverLe remote current
  · refine ⟨fun _ => by simp [hle], ?_⟩
    simp only [hle, if_true]
    constructor
    · rintro ⟨info, h⟩
      exact absurd h (by simp)
    · rintro ⟨h, -⟩
      exact absurd h (by simp [hle])
  · rw [Bool.not_eq_true] at hle
    refine ⟨fun h => absurd h (by simp [hle]), ?_⟩
    simp only [hle, Bool.false_eq_true, if_false]
    cases hf : release.assets.find? (fun a => a.name == "rmm.exe") with
    | none =>
      constructor
      · rintro ⟨info, h⟩
        exact absurd h (by simp)
      · rintro ⟨-, a, hmem, hname⟩
        have := List.find?_eq_none.mp hf a hmem
        simp [hname] at this
    | some exe_asset =>
      constructor
      · rintro ⟨info, -⟩
        refine ⟨trivial, exe_asset, List.mem_of_find?_eq_some hf, ?_⟩
        have := List.find?_some hf
        simpa using this
      · rintro -
        exact ⟨_, rfl⟩

/-- Witness for C7: with current 1.0.0 and a release v1.0.1 carrying an
rmm.exe asset, an update is reported. -/
theorem c7_update_iff_newer_witness :
    ∃ info,
      check_for_update ⟨1, 0, 0, [], []⟩
          ⟨"v1.0.1", [⟨"rmm.exe", "https://example.test/rmm.exe", 10⟩]⟩ =
        Except.ok (some info) :=
  ((c7_update_iff_newer ⟨1, 0, 0, [], []⟩ ⟨1, 0, 1, [], []⟩
      ⟨"v1.0.1", [⟨"rmm.exe", "https://example.test/rmm.exe", 10⟩]⟩
      rfl).2).mpr
    ⟨rfl, ⟨"rmm.exe", "https://example.test/rmm.exe", 10⟩,
      List.mem_singleton.mpr rfl, rfl⟩

/-! ## Claim C9 -/

/-- Claim C9: a release whose tag does not parse as a semantic version
yields Ok none rather than an error, and the only error sources of the
update check are a network failure, a non-2xx feed response, an
undecodable body, and a missing rmm.exe asset. -/
theorem c9_error_taxonomy :
    (∀ (current : SemVer) (r : GitHubRelease),
        parseSemVer (trimStartV r.tag_name) = none →
          check_for_update_feed current (.release r) = .ok none)
    ∧ (∀ (current : SemVer) (f : FeedOutcome),
        (∃ err, check_for_update_feed current f = .error err) →
          (f = .netErr ∨ (∃ s b, f = .httpErr s b) ∨ f = .badJson ∨
           (∃ r, f = .release r ∧
             r.assets.find? (fun a => a.name == "rmm.exe") = none))) := by
  constructor
  · intro current r hparse
    show check_for_update current r = .ok none
    unfold check_for_update
    rw [hparse]
  · intro current f
    cases f with
    | netErr => exact fun _ => Or.inl rfl
    | httpErr s b => exact fun _ => Or.inr (Or.inl ⟨s, b, rfl⟩)
    | badJson => exact fun _ => Or.inr (Or.inr (Or.inl rfl))
    | release r =>
      rintro ⟨err, herr⟩
      refine Or.inr (Or.inr (Or.inr ⟨r, rfl, ?_⟩))
      change check_for_update current r = .error err at herr
      unfold check_for_update at herr
      cases hparse : parseSemVer (trimStartV r.tag_name) with
      | none => simp [hparse] at herr
      | some remote =>
        by_cases hle : semverLe remote current
        · simp [hparse, hle] at herr
        · cases hf : r.assets.find? (fun a => a.name == "rmm.exe") with
          | none => rfl
          | some exe_asset => simp [hparse, hle, hf] at herr

/-- Witness for C9: an unparseable tag yields Ok none, and a release
above the current version with no assets is an error whose source is the
missing asset. -/
theorem c9_error_taxonomy_witness :
    check_for_update_feed ⟨1, 0, 0, [], []⟩
        (.release ⟨"nightly-build", []⟩) = .ok none ∧
    (FeedOutcome.release ⟨"v9.9.9", []⟩ = .netErr ∨
     (∃ s b, FeedOutcome.release ⟨"v9.9.9", []⟩ = .httpErr s b) ∨
     FeedOutcome.release ⟨"v9.9.9", []⟩ = .badJson ∨
     (∃ r, FeedOutcome.release ⟨"v9.9.9", []⟩ = .release r ∧
       r.assets.find? (fun a => a.name == "rmm.exe") = none)) :=
  ⟨c9_error_taxonomy.1 ⟨1, 0, 0, [], []⟩ ⟨"nightly-build", []⟩ rfl,
   c9_error_taxonomy.2 ⟨1, 0, 0, [], []⟩ (.release ⟨"v9.9.9", []⟩)
     ⟨"No rmm.exe found in release assets", rfl⟩⟩
